import Mathlib

/-!
Shallow embedding of the register/clipboard routing engine and operator
pending-state classifier of `src/crates/vim/src/state.rs`.

The register store (`VimGlobals.registers`, a `HashMap<char, Register>` in the
source) is modelled as a total function `Char → Option Register`; `HashMap::insert`
(which returns the previous value) is modelled by `updReg` together with a lookup
of the old value at the key.  The system clipboard and primary selection, accessed
in the source through the `cx` context (`write_to_clipboard`, `read_from_clipboard`,
`write_to_primary`), are modelled as a `SysEnv` record threaded in and out of
`write_registers`.  The `#[cfg(target_os = "linux")]` split is modelled by an
explicit `linux : Bool` parameter.
-/

namespace Vim

/-- Modelled from the spec: per-cursor selection-shape metadata attached to a
register (`ClipboardSelection` comes from the `editor` crate, which is not part
of this repository).  Its internal fields never influence the routing logic, so
it is embedded as an opaque-in-spirit but concrete record. -/
structure ClipboardSelection where
  len : Nat
  is_entire_line : Bool
deriving DecidableEq, Repr

/-- A register: text plus optional per-cursor selection-shape metadata
(`struct Register`, state.rs lines 100-104). -/
structure Register where
  text : String
  clipboard_selections : Option (List ClipboardSelection)
deriving DecidableEq, Repr

instance : Inhabited Register := ⟨{ text := "", clipboard_selections := none }⟩

/-- Modelled from the spec: a system-clipboard item (text plus optional
metadata), the `gpui::ClipboardItem` type, which is not part of this
repository; the spec describes the clipboard accessor as exposing items
carrying text and shape metadata. -/
structure ClipboardItem where
  text : String
  metadata : Option (List ClipboardSelection)
deriving DecidableEq, Repr

/-- Conversion `From<Register> for ClipboardItem` (state.rs lines 106-115). -/
def Register.toClipboardItem (r : Register) : ClipboardItem :=
  { text := r.text, metadata := r.clipboard_selections }

/-- Conversion `From<ClipboardItem> for Register` (state.rs lines 117-124). -/
def Register.ofClipboardItem (item : ClipboardItem) : Register :=
  { text := item.text, clipboard_selections := item.metadata }

/-- Modelled from the spec: the clipboard-sync policy (`crate::UseSystemClipboard`,
defined outside this repository); the spec names its three recognized values
`Never`, `OnYank`, `Always`. -/
inductive UseSystemClipboard where
  | Never
  | OnYank
  | Always
deriving DecidableEq, Repr

/-- Modelled from the spec: the state of the host system clipboard and the
platform primary selection, the two external slots the router's clipboard
accessor reads and writes. -/
structure SysEnv where
  clipboard : Option ClipboardItem
  primary : Option ClipboardItem
deriving DecidableEq, Repr

/-- The router-relevant fields of `struct VimGlobals` (state.rs lines 135-158):
the last-yank freshness tracker and the register store. -/
structure VimGlobals where
  last_yank : Option String
  registers : Char → Option Register

/-- Model of `HashMap::insert` restricted to the new mapping: point update of
the register store. The previous value (which `insert` returns) is read off
separately as `regs k`. -/
def updReg (regs : Char → Option Register) (k : Char) (v : Register) :
    Char → Option Register :=
  fun c => if c = k then some v else regs c

/-- Model of Rust `register.to_lowercase().next().unwrap_or(register)`
(state.rs lines 171 and 252) on the ASCII register names the router uses:
uppercase ASCII letters fold to their lowercase form, everything else is
unchanged. -/
def rustToLower (c : Char) : Char :=
  if 'A' ≤ c ∧ c ≤ 'Z' then Char.ofNat (c.toNat + 32) else c

/-- Model of Rust `content.text.contains('\n')` (state.rs line 218): whether
the text contains the given character. -/
def containsChar (s : String) (c : Char) : Bool := s.data.contains c

/-- The numbered-register slots visited by the shifting loop: Rust's
`for i in '1'..'8'` iterates over the half-open range, i.e. the characters
'1' through '7' (state.rs line 224). -/
def numberedSlots : List Char := ['1', '2', '3', '4', '5', '6', '7']

/-- The numbered-register shifting loop (state.rs lines 223-230): insert
`content` at the next slot; if the slot held a value, keep shifting that
value up, otherwise stop. -/
def shiftInto (regs : Char → Option Register) (content : Register) :
    List Char → (Char → Option Register)
  | [] => regs
  | i :: rest =>
    match regs i with
    | some moved => shiftInto (updReg regs i content) moved rest
    | none => updReg regs i content

/-- `VimGlobals::write_registers` (state.rs lines 162-234).  Returns the
updated globals together with the updated clipboard environment. -/
def write_registers (linux : Bool) (setting : UseSystemClipboard)
    (g : VimGlobals) (env : SysEnv) (content : Register)
    (register : Option Char) (is_yank : Bool) (linewise : Bool) :
    VimGlobals × SysEnv :=
  match register with
  | some register =>
    let lower := rustToLower register
    if lower ≠ register then
      let current := (g.registers lower).getD { text := "", clipboard_selections := none }
      let merged : Register :=
        { text := current.text ++ content.text, clipboard_selections := none }
      ({ g with registers := updReg (updReg g.registers lower merged) '"' merged }, env)
    else
      let regs0 := updReg g.registers '"' content
      if lower = '_' ∨ lower = ':' ∨ lower = '.' ∨ lower = '%' ∨ lower = '#' ∨
          lower = '=' ∨ lower = '/' then
        ({ g with registers := regs0 }, env)
      else if lower = '+' then
        ({ g with registers := regs0 },
         { env with clipboard := some content.toClipboardItem })
      else if lower = '*' then
        if linux then
          ({ g with registers := regs0 },
           { env with primary := some content.toClipboardItem })
        else
          ({ g with registers := regs0 },
           { env with clipboard := some content.toClipboardItem })
      else if lower = '"' then
        ({ g with registers := updReg (updReg regs0 '0' content) '"' content }, env)
      else
        ({ g with registers := updReg regs0 lower content }, env)
  | none =>
    let mirror := setting = UseSystemClipboard.Always ∨
      (setting = UseSystemClipboard.OnYank ∧ is_yank)
    let last_yank' : Option String :=
      if mirror then some content.text else env.clipboard.map ClipboardItem.text
    let env' :=
      if mirror then { env with clipboard := some content.toClipboardItem } else env
    let regs0 := updReg g.registers '"' content
    if is_yank then
      ({ last_yank := last_yank', registers := updReg regs0 '0' content }, env')
    else
      let contains_newline := containsChar content.text '\n'
      let regs1 := if contains_newline then regs0 else updReg regs0 '-' content
      let regs2 :=
        if linewise ∨ contains_newline then shiftInto regs1 content numberedSlots
        else regs1
      ({ last_yank := last_yank', registers := regs2 }, env')

/-- `VimGlobals::system_clipboard_is_newer` (state.rs lines 285-293). -/
def system_clipboard_is_newer (g : VimGlobals) (env : SysEnv) : Bool :=
  match env.clipboard with
  | some item =>
    match g.last_yank with
    | some last_state => last_state != item.text
    | none => true
  | none => false

/-- `VimGlobals::read_register` (state.rs lines 236-283).  The `editor`
argument, used only to resolve register `%` to the current file path, is
modelled by the resolved path itself. -/
def read_register (linux : Bool) (setting : UseSystemClipboard) (g : VimGlobals)
    (env : SysEnv) (register : Option Char) (file_path : Option String) :
    Option Register :=
  match register.filter (fun r => r != '"') with
  | none =>
    match setting with
    | UseSystemClipboard.Always => env.clipboard.map Register.ofClipboardItem
    | UseSystemClipboard.OnYank =>
      if system_clipboard_is_newer g env then env.clipboard.map Register.ofClipboardItem
      else g.registers '"'
    | UseSystemClipboard.Never => g.registers '"'
  | some register =>
    let lower := rustToLower register
    if lower = '_' ∨ lower = ':' ∨ lower = '.' ∨ lower = '#' ∨ lower = '=' then
      none
    else if lower = '+' then
      env.clipboard.map Register.ofClipboardItem
    else if lower = '*' then
      if linux then env.primary.map Register.ofClipboardItem
      else env.clipboard.map Register.ofClipboardItem
    else if lower = '%' then
      file_path.map (fun p => { text := p, clipboard_selections := none })
    else
      g.registers lower

/-- `enum Mode` (state.rs lines 16-24). -/
inductive Mode where
  | Normal
  | Insert
  | Replace
  | Visual
  | VisualLine
  | VisualBlock
deriving DecidableEq, Repr

/-- `Mode::is_visual` (state.rs lines 39-46). -/
def Mode.is_visual : Mode → Bool
  | Mode.Normal | Mode.Insert | Mode.Replace => false
  | Mode.Visual | Mode.VisualLine | Mode.VisualBlock => true

/-- Modelled from the spec: the payload of a pending surround-add
(`crate::surrounds::SurroundsType`, not part of this repository).  Only its
presence or absence matters to the pending-state classifier. -/
inductive SurroundsType where
  | mk
deriving DecidableEq, Repr

/-- Modelled from the spec: a text object (`crate::object::Object`, not part of
this repository).  Only its presence or absence matters to the pending-state
classifier. -/
inductive Object where
  | mk
deriving DecidableEq, Repr

/-- `enum Operator` (state.rs lines 54-78). -/
inductive Operator where
  | Change
  | Delete
  | Yank
  | Replace
  | Object (around : Bool)
  | FindForward (before : Bool)
  | FindBackward (after : Bool)
  | AddSurrounds (target : Option SurroundsType)
  | ChangeSurrounds (target : Option Object)
  | DeleteSurrounds
  | Mark
  | Jump (line : Bool)
  | Indent
  | Outdent
  | Lowercase
  | Uppercase
  | OppositeCase
  | Digraph (first_char : Option Char)
  | Register
  | RecordRegister
  | ReplayRegister
  | ToggleComments
deriving DecidableEq, Repr

/-- `Operator::is_waiting` (state.rs lines 363-389). -/
def Operator.is_waiting (op : Operator) (mode : Mode) : Bool :=
  match op with
  | Operator.AddSurrounds target => target.isSome || mode.is_visual
  | Operator.FindForward _ | Operator.Mark | Operator.Jump _
  | Operator.FindBackward _ | Operator.Register | Operator.RecordRegister
  | Operator.ReplayRegister | Operator.Replace | Operator.Digraph _
  | Operator.ChangeSurrounds (some _) | Operator.DeleteSurrounds => true
  | Operator.Change | Operator.Delete | Operator.Yank | Operator.Indent
  | Operator.Outdent | Operator.Lowercase | Operator.Uppercase
  | Operator.Object _ | Operator.ChangeSurrounds none | Operator.OppositeCase
  | Operator.ToggleComments => false

/-- An initially empty register store with no recorded yank. -/
def emptyGlobals : VimGlobals := { last_yank := none, registers := fun _ => none }

/-- An empty system clipboard and primary selection. -/
def emptyEnv : SysEnv := { clipboard := none, primary := none }

/-- A sequence of implicit (no explicit register) linewise deletes of the given
texts, performed in order against an initially empty store under the `Never`
clipboard policy. -/
def lineDeletes (texts : List String) : VimGlobals × SysEnv :=
  texts.foldl
    (fun p t => write_registers false UseSystemClipboard.Never p.1 p.2
      { text := t, clipboard_selections := none } none false true)
    (emptyGlobals, emptyEnv)

theorem updReg_self (regs : Char → Option Register) (k : Char) (v : Register) :
    updReg regs k v k = some v := by
  simp [updReg]

theorem updReg_other (regs : Char → Option Register) (k : Char) (v : Register)
    (c : Char) (h : c ≠ k) : updReg regs k v c = regs c := by
  simp [updReg, h]

theorem shiftInto_not_mem (l : List Char) (regs : Char → Option Register)
    (content : Register) (c : Char) (h : c ∉ l) :
    shiftInto regs content l c = regs c := by
  induction l generalizing regs content with
  | nil => rfl
  | cons i rest ih =>
    simp only [List.mem_cons, not_or] at h
    cases hreg : regs i with
    | some moved =>
      simp only [shiftInto, hreg]
      rw [ih _ _ h.2, updReg_other _ _ _ _ h.1]
    | none =>
      simp only [shiftInto, hreg]
      exact updReg_other _ _ _ _ h.1

/-- Claim C1 (code evaluated at the failing input): after 8 successive implicit
linewise deletes of "a".."h" into an empty store, the code holds the 7 most
recent deletes in registers '1'..'7' and has discarded "a", while registers '8'
and '9' were never written — the shifting loop `for i in '1'..'8'` iterates the
half-open range '1'..='7', so the numbered history is 7 deep, not the 9-deep
history ('1'..'9', discarding only from '9') that the claim states. -/
theorem numbered_history_is_seven_deep :
    (lineDeletes ["a", "b", "c", "d", "e", "f", "g", "h"]).1.registers '1' =
        some { text := "h", clipboard_selections := none } ∧
    (lineDeletes ["a", "b", "c", "d", "e", "f", "g", "h"]).1.registers '2' =
        some { text := "g", clipboard_selections := none } ∧
    (lineDeletes ["a", "b", "c", "d", "e", "f", "g", "h"]).1.registers '3' =
        some { text := "f", clipboard_selections := none } ∧
    (lineDeletes ["a", "b", "c", "d", "e", "f", "g", "h"]).1.registers '4' =
        some { text := "e", clipboard_selections := none } ∧
    (lineDeletes ["a", "b", "c", "d", "e", "f", "g", "h"]).1.registers '5' =
        some { text := "d", clipboard_selections := none } ∧
    (lineDeletes ["a", "b", "c", "d", "e", "f", "g", "h"]).1.registers '6' =
        some { text := "c", clipboard_selections := none } ∧
    (lineDeletes ["a", "b", "c", "d", "e", "f", "g", "h"]).1.registers '7' =
        some { text := "b", clipboard_selections := none } ∧
    (lineDeletes ["a", "b", "c", "d", "e", "f", "g", "h"]).1.registers '8' = none ∧
    (lineDeletes ["a", "b", "c", "d", "e", "f", "g", "h"]).1.registers '9' = none := by
  decide

/-- Classification of pending operators exactly as claim C2's "exactly for"
list words it, in particular "surround-add when no target has yet been chosen
or the mode is a visual variant"; written from the claim, to be compared with
the code's `Operator.is_waiting`. -/
def spec_is_waiting_claimed (op : Operator) (mode : Mode) : Bool :=
  match op with
  | Operator.AddSurrounds target => target.isNone || mode.is_visual
  | Operator.FindForward _ | Operator.FindBackward _ | Operator.Mark
  | Operator.Jump _ | Operator.Register | Operator.RecordRegister
  | Operator.ReplayRegister | Operator.Replace | Operator.Digraph _
  | Operator.ChangeSurrounds (some _) | Operator.DeleteSurrounds => true
  | Operator.Change | Operator.Delete | Operator.Yank | Operator.Indent
  | Operator.Outdent | Operator.Lowercase | Operator.Uppercase
  | Operator.OppositeCase | Operator.Object _
  | Operator.ChangeSurrounds none | Operator.ToggleComments => false

/-- Classification of pending operators as claim C2 must be amended: the
surround-add case waits when a target has ALREADY been chosen or the mode is a
visual variant (the rest of the claim's list is unchanged, including the
particular values `(AddSurrounds none, Normal) -> false`,
`(AddSurrounds none, Visual) -> true`, `(Delete, *) -> false`,
`(FindForward true, *) -> true`). -/
def spec_is_waiting_amended (op : Operator) (mode : Mode) : Bool :=
  match op with
  | Operator.AddSurrounds target => target.isSome || mode.is_visual
  | Operator.FindForward _ | Operator.FindBackward _ | Operator.Mark
  | Operator.Jump _ | Operator.Register | Operator.RecordRegister
  | Operator.ReplayRegister | Operator.Replace | Operator.Digraph _
  | Operator.ChangeSurrounds (some _) | Operator.DeleteSurrounds => true
  | Operator.Change | Operator.Delete | Operator.Yank | Operator.Indent
  | Operator.Outdent | Operator.Lowercase | Operator.Uppercase
  | Operator.OppositeCase | Operator.Object _
  | Operator.ChangeSurrounds none | Operator.ToggleComments => false

/-- Claim C2 (counterexample): the claim says `is_waiting` returns true exactly
for the listed cases, with surround-add waiting "when no target has yet been
chosen or the mode is a visual variant"; but at `(AddSurrounds (some _), Normal)`
the code returns true while the claimed classification returns false (the code
waits when a target HAS been chosen). -/
theorem is_waiting_addsurrounds_counterexample :
    Operator.is_waiting (Operator.AddSurrounds (some SurroundsType.mk)) Mode.Normal = true ∧
    spec_is_waiting_claimed (Operator.AddSurrounds (some SurroundsType.mk)) Mode.Normal
      = false := by
  decide

/-- Claim C2 (amended): for every operator and mode, `is_waiting` returns true
exactly for: surround-add when a target has already been chosen or the mode is
a visual variant; find-forward/backward; mark; jump; register prefix;
record-register; replay-register; replace; digraph; surround-change with an
already-known target; and surround-delete — and false for change, delete, yank,
indent, outdent, the case-conversion operators, the text-object operator,
surround-change with no target, and comment-toggle; it is a pure function of
`(operator, mode)`, with `(AddSurrounds none, Normal) -> false`,
`(AddSurrounds none, Visual) -> true`, `(Delete, *) -> false`,
`(FindForward true, *) -> true`. -/
theorem is_waiting_matches_amended_spec :
    ∀ (op : Operator) (mode : Mode),
      Operator.is_waiting op mode = spec_is_waiting_amended op mode := by
  intro op mode
  cases op with
  | ChangeSurrounds t => cases t <;> rfl
  | AddSurrounds t => rfl
  | _ => rfl

/-- Claim C3 (counterexample): a black-hole write does change the Register
Store: writing "x" to register '_' on an empty store sets the unnamed register
'"' (the source inserts into '"' before dispatching on the register name),
whereas that entry was previously empty. -/
theorem blackhole_write_changes_store :
    (write_registers false UseSystemClipboard.Never emptyGlobals emptyEnv
        { text := "x", clipboard_selections := none } (some '_') false false).1.registers '"'
      = some { text := "x", clipboard_selections := none } ∧
    emptyGlobals.registers '"' = none := by
  decide

/-- Claim C3 (amended): for every content, a write with explicit register '_'
(the black-hole register) writes nothing to the system clipboard or primary
selection, leaves the freshness tracker and every Register Store entry other
than the unnamed register '"' unchanged, sets the unnamed register to the
written content, and a subsequent read of register '_' returns no content. -/
theorem blackhole_write_amended (linux : Bool) (setting : UseSystemClipboard)
    (g : VimGlobals) (env : SysEnv) (content : Register) (is_yank linewise : Bool)
    (fp : Option String) :
    (write_registers linux setting g env content (some '_') is_yank linewise).1.registers '"'
      = some content ∧
    (∀ c, c ≠ '"' →
      (write_registers linux setting g env content (some '_') is_yank linewise).1.registers c
        = g.registers c) ∧
    (write_registers linux setting g env content (some '_') is_yank linewise).1.last_yank
      = g.last_yank ∧
    (write_registers linux setting g env content (some '_') is_yank linewise).2 = env ∧
    read_register linux setting
      (write_registers linux setting g env content (some '_') is_yank linewise).1
      (write_registers linux setting g env content (some '_') is_yank linewise).2
      (some '_') fp = none := by
  have key : write_registers linux setting g env content (some '_') is_yank linewise
      = ({ g with registers := updReg g.registers '"' content }, env) := rfl
  rw [key]
  exact ⟨updReg_self g.registers '"' content,
    fun c hc => updReg_other g.registers '"' content c hc, rfl, rfl, rfl⟩

theorem shiftInto_unnamed (regs : Char → Option Register) (content : Register) :
    shiftInto regs content numberedSlots '"' = regs '"' :=
  shiftInto_not_mem _ _ _ _ (by decide)

/-- The merged register produced by an uppercase append: the existing text of
the case-folded register (empty if unset) followed by the new text, with the
selection-shape metadata discarded (state.rs lines 173-177). -/
def mergedFor (g : VimGlobals) (content : Register) (lower : Char) : Register :=
  { text := ((g.registers lower).getD { text := "", clipboard_selections := none }).text
      ++ content.text,
    clipboard_selections := none }

/-- Claim C4: after every call to `write_registers` — implicit write, explicit
lowercase/symbol register, explicit uppercase (append), explicit unnamed, and
the clipboard-forwarding registers '+' and '*' alike — the stored unnamed
register '"' equals the content just written (for uppercase appends, the merged
appended content). -/
theorem unnamed_register_mirrors_write (linux : Bool) (setting : UseSystemClipboard)
    (g : VimGlobals) (env : SysEnv) (content : Register) (register : Option Char)
    (is_yank linewise : Bool) :
    (write_registers linux setting g env content register is_yank linewise).1.registers '"' =
      some (match register with
            | some r =>
              if rustToLower r = r then content
              else { text := ((g.registers (rustToLower r)).getD
                        { text := "", clipboard_selections := none }).text ++ content.text,
                     clipboard_selections := none }
            | none => content) := by
  cases register with
  | none =>
    simp only [write_registers]
    cases is_yank with
    | true => simp [updReg]
    | false => split_ifs <;> simp [shiftInto_unnamed, updReg]
  | some r =>
    by_cases h : rustToLower r = r
    · simp only [write_registers]
      rw [if_neg (not_not_intro h), h, if_pos rfl]
      split_ifs <;> simp [updReg]
    · simp only [write_registers]
      rw [if_pos h]
      simp [updReg, h]

/-- Claim C3 (witness for the amended theorem): concrete instance at register
'a' of an empty store. -/
theorem blackhole_write_amended_witness :
    (write_registers false UseSystemClipboard.Never emptyGlobals emptyEnv
        { text := "x", clipboard_selections := none } (some '_') false false).1.registers 'a'
      = emptyGlobals.registers 'a' :=
  (blackhole_write_amended false UseSystemClipboard.Never emptyGlobals emptyEnv
      { text := "x", clipboard_selections := none } false false none).2.1 'a' (by decide)

/-- Claim C5: under the `OnYank` clipboard policy, reading the unnamed register
(no register given, or explicit '"') returns the system clipboard contents if
and only if the clipboard holds an item whose text differs from the last text
this router recorded as a yank (the freshness check), and otherwise returns the
stored unnamed register; in particular after a yank of A mirrored to the
clipboard, an external clipboard change to B (with different text) makes the
read return B, while with no external change the read returns the stored A. -/
theorem onyank_unnamed_read_freshness (linux : Bool) (g : VimGlobals) (env : SysEnv)
    (fp : Option String) (A : Register) (B : ClipboardItem) (lw : Bool) :
    (∀ reg, reg = none ∨ reg = some '"' →
      read_register linux UseSystemClipboard.OnYank g env reg fp =
        match env.clipboard with
        | some item =>
          if g.last_yank ≠ some item.text then some (Register.ofClipboardItem item)
          else g.registers '"'
        | none => g.registers '"') ∧
    (B.text ≠ A.text →
      read_register linux UseSystemClipboard.OnYank
        (write_registers linux UseSystemClipboard.OnYank g env A none true lw).1
        { (write_registers linux UseSystemClipboard.OnYank g env A none true lw).2 with
            clipboard := some B } none fp = some (Register.ofClipboardItem B)) ∧
    read_register linux UseSystemClipboard.OnYank
      (write_registers linux UseSystemClipboard.OnYank g env A none true lw).1
      (write_registers linux UseSystemClipboard.OnYank g env A none true lw).2 none fp
      = some A := by
  have key : write_registers linux UseSystemClipboard.OnYank g env A none true lw
      = ({ last_yank := some A.text,
           registers := updReg (updReg g.registers '"' A) '0' A },
         { env with clipboard := some A.toClipboardItem }) := rfl
  refine ⟨?_, ?_, ?_⟩
  · intro reg hreg
    have hf : reg.filter (fun r => r != '"') = none := by
      rcases hreg with rfl | rfl <;> simp [Option.filter]
    simp only [read_register, hf]
    cases hc : env.clipboard with
    | none => simp [system_clipboard_is_newer, hc]
    | some item =>
      cases hy : g.last_yank with
      | none => simp [system_clipboard_is_newer, hc, hy]
      | some l =>
        by_cases he : l = item.text
        · simp [system_clipboard_is_newer, hc, hy, he]
        · simp [system_clipboard_is_newer, hc, hy, he, bne_iff_ne]
  · intro hBA
    rw [key]
    simp [read_register, Option.filter, system_clipboard_is_newer, bne_iff_ne,
      Ne.symm hBA]
  · rw [key]
    simp [read_register, Option.filter, system_clipboard_is_newer,
      Register.toClipboardItem, updReg]

/-- Claim C5 (witness): concrete instance of the external-change scenario — a
yank of "a" mirrored to the clipboard, the clipboard externally replaced by
"b", and the subsequent unnamed read returning "b". -/
theorem onyank_unnamed_read_freshness_witness :
    read_register false UseSystemClipboard.OnYank
      (write_registers false UseSystemClipboard.OnYank emptyGlobals emptyEnv
          { text := "a", clipboard_selections := none } none true true).1
      { (write_registers false UseSystemClipboard.OnYank emptyGlobals emptyEnv
          { text := "a", clipboard_selections := none } none true true).2 with
          clipboard := some { text := "b", metadata := none } } none none
      = some (Register.ofClipboardItem { text := "b", metadata := none }) :=
  (onyank_unnamed_read_freshness false emptyGlobals emptyEnv none
      { text := "a", clipboard_selections := none } { text := "b", metadata := none }
      true).2.1 (by decide)

/-- Claim C6: for every non-special register name (not uppercase and not in the
special dispatch lists), writing content to that name and then reading the same
name returns exactly that content, text and selection-shape metadata unchanged;
for uppercase names the write appends to the case-folded register's existing
text instead of replacing it. -/
theorem nonspecial_roundtrip (linux : Bool) (setting : UseSystemClipboard)
    (g : VimGlobals) (env : SysEnv) (content : Register) (is_yank linewise : Bool)
    (fp : Option String) :
    (∀ c : Char, rustToLower c = c →
      c ∉ (['_', ':', '.', '%', '#', '=', '/', '+', '*', '"'] : List Char) →
      read_register linux setting
        (write_registers linux setting g env content (some c) is_yank linewise).1
        (write_registers linux setting g env content (some c) is_yank linewise).2
        (some c) fp = some content) ∧
    (∀ c : Char, rustToLower c ≠ c →
      (write_registers linux setting g env content (some c) is_yank linewise).1.registers
          (rustToLower c)
        = some { text := ((g.registers (rustToLower c)).getD
                    { text := "", clipboard_selections := none }).text ++ content.text,
                 clipboard_selections := none }) := by
  constructor
  · intro c hl hmem
    simp only [List.mem_cons, not_or] at hmem
    obtain ⟨h1, h2, h3, h4, h5, h6, h7, h8, h9, h10, -⟩ := hmem
    have key : write_registers linux setting g env content (some c) is_yank linewise
        = ({ g with registers := updReg (updReg g.registers '"' content) c content },
           env) := by
      simp only [write_registers]
      rw [hl]
      simp [h1, h2, h3, h4, h5, h6, h7, h8, h9, h10]
    rw [key]
    have hf : (some c).filter (fun r => r != '"') = some c := by
      simp [Option.filter, bne_iff_ne, h10]
    simp [read_register, hf, hl, updReg, h1, h2, h3, h4, h5, h6, h8, h9]
  · intro c h
    simp only [write_registers]
    rw [if_pos h]
    simp [updReg]

/-- Claim C6 (witness): writing "x" to register 'a' and reading 'a' back yields
"x"; writing "x" with explicit register 'B' appends to register 'b'. -/
theorem nonspecial_roundtrip_witness :
    read_register false UseSystemClipboard.Never
      (write_registers false UseSystemClipboard.Never emptyGlobals emptyEnv
          { text := "x", clipboard_selections := none } (some 'a') false false).1
      (write_registers false UseSystemClipboard.Never emptyGlobals emptyEnv
          { text := "x", clipboard_selections := none } (some 'a') false false).2
      (some 'a') none = some { text := "x", clipboard_selections := none } ∧
    (write_registers false UseSystemClipboard.Never emptyGlobals emptyEnv
        { text := "x", clipboard_selections := none } (some 'B') false false).1.registers
        (rustToLower 'B')
      = some { text := ((emptyGlobals.registers (rustToLower 'B')).getD
                   { text := "", clipboard_selections := none }).text ++
                   ({ text := "x", clipboard_selections := none } : Register).text,
               clipboard_selections := none } :=
  ⟨(nonspecial_roundtrip false UseSystemClipboard.Never emptyGlobals emptyEnv
      { text := "x", clipboard_selections := none } false false none).1 'a'
      (by decide) (by decide),
   (nonspecial_roundtrip false UseSystemClipboard.Never emptyGlobals emptyEnv
      { text := "x", clipboard_selections := none } false false none).2 'B'
      (by decide)⟩

/-- Claim C7: for every write with an explicit uppercase register (a character
with a distinct lowercase form), `write_registers` folds the name to lowercase,
sets that register's text to the concatenation of its existing text followed by
the new text, discards any per-cursor selection-shape metadata on the result,
and also stores the merged result into the unnamed register '"'; nothing else
changes (no other register, no clipboard write, no freshness-tracker update). -/
theorem uppercase_append (linux : Bool) (setting : UseSystemClipboard)
    (g : VimGlobals) (env : SysEnv) (content : Register) (is_yank linewise : Bool)
    (c : Char) (h : rustToLower c ≠ c) :
    (write_registers linux setting g env content (some c) is_yank linewise).1.registers
        (rustToLower c)
      = some { text := ((g.registers (rustToLower c)).getD
                   { text := "", clipboard_selections := none }).text ++ content.text,
               clipboard_selections := none } ∧
    (write_registers linux setting g env content (some c) is_yank linewise).1.registers '"'
      = some { text := ((g.registers (rustToLower c)).getD
                   { text := "", clipboard_selections := none }).text ++ content.text,
               clipboard_selections := none } ∧
    (∀ d, d ≠ '"' → d ≠ rustToLower c →
      (write_registers linux setting g env content (some c) is_yank linewise).1.registers d
        = g.registers d) ∧
    (write_registers linux setting g env content (some c) is_yank linewise).2 = env ∧
    (write_registers linux setting g env content (some c) is_yank linewise).1.last_yank
      = g.last_yank := by
  have key : write_registers linux setting g env content (some c) is_yank linewise
      = ({ g with
            registers := updReg
              (updReg g.registers (rustToLower c) (mergedFor g content (rustToLower c)))
              '"' (mergedFor g content (rustToLower c)) },
          env) := by
    simp only [write_registers]
    rw [if_pos h]
    rfl
  rw [key]
  refine ⟨?_, ?_, ?_, rfl, rfl⟩
  · simp [updReg, mergedFor]
  · simp [updReg, mergedFor]
  · intro d hd1 hd2
    simp [updReg, hd1, hd2]

/-- Claim C7 (witness): appending "x" through explicit register 'A' merges into
register 'a' and mirrors the merged result to the unnamed register. -/
theorem uppercase_append_witness :
    (write_registers false UseSystemClipboard.Never emptyGlobals emptyEnv
        { text := "x", clipboard_selections := none } (some 'A') false false).1.registers '"'
      = some { text := ((emptyGlobals.registers (rustToLower 'A')).getD
                   { text := "", clipboard_selections := none }).text ++
                   ({ text := "x", clipboard_selections := none } : Register).text,
               clipboard_selections := none } :=
  (uppercase_append false UseSystemClipboard.Never emptyGlobals emptyEnv
      { text := "x", clipboard_selections := none } false false 'A' (by decide)).2.1

/-- Claim C8: for every implicit write, if `is_yank` is true then register '-'
and the numbered registers '1'..'9' are left unchanged (only '"' and '0' are
written); if `is_yank` is false and the text contains no line break and the
write is not linewise, register '0' is left unchanged — a yank never populates
the small-delete register or the numbered stack, a small delete never
populates register '0'. -/
theorem yank_and_small_delete_frame (linux : Bool) (setting : UseSystemClipboard)
    (g : VimGlobals) (env : SysEnv) (content : Register) (linewise : Bool) :
    ((write_registers linux setting g env content none true linewise).1.registers '-'
        = g.registers '-' ∧
      ∀ c : Char, '1' ≤ c → c ≤ '9' →
        (write_registers linux setting g env content none true linewise).1.registers c
          = g.registers c) ∧
    (containsChar content.text '\n' = false →
      (write_registers linux setting g env content none false false).1.registers '0'
        = g.registers '0') := by
  refine ⟨⟨?_, ?_⟩, ?_⟩
  · simp [write_registers, updReg]
  · intro c h1 h9
    have hc0 : c ≠ '0' := by
      intro e
      subst e
      exact absurd h1 (by decide)
    have hcq : c ≠ '"' := by
      intro e
      subst e
      exact absurd h1 (by decide)
    simp [write_registers, updReg, hc0, hcq]
  · intro hn
    simp [write_registers, updReg, hn]

/-- Claim C8 (witness): concrete instance — a yank of "x" leaves register '5'
untouched, and a single-line non-linewise delete of "x" leaves register '0'
untouched. -/
theorem yank_and_small_delete_frame_witness :
    (write_registers false UseSystemClipboard.Never emptyGlobals emptyEnv
        { text := "x", clipboard_selections := none } none true false).1.registers '5'
      = emptyGlobals.registers '5' ∧
    (write_registers false UseSystemClipboard.Never emptyGlobals emptyEnv
        { text := "x", clipboard_selections := none } none false false).1.registers '0'
      = emptyGlobals.registers '0' :=
  ⟨(yank_and_small_delete_frame false UseSystemClipboard.Never emptyGlobals emptyEnv
      { text := "x", clipboard_selections := none } false).1.2 '5' (by decide) (by decide),
   (yank_and_small_delete_frame false UseSystemClipboard.Never emptyGlobals emptyEnv
      { text := "x", clipboard_selections := none } false).2 (by decide)⟩

/-- Claim C9: a write with an explicit register never consults the clipboard
policy (the result is the same under any policy setting) and never updates the
last-yank freshness tracker; in particular an explicit write to register '+'
sends the content to the system clipboard while leaving `last_yank` unchanged,
so under the `OnYank` policy — when the written text differs from the recorded
last yank — a subsequent read of the unnamed register treats the router's own
clipboard write as an external change (`system_clipboard_is_newer` is true) and
returns the clipboard contents. -/
theorem explicit_write_ignores_policy (linux : Bool) (s s' : UseSystemClipboard)
    (g : VimGlobals) (env : SysEnv) (content : Register) (is_yank linewise : Bool)
    (fp : Option String) (hfresh : g.last_yank ≠ some content.text) :
    (∀ r : Char, write_registers linux s g env content (some r) is_yank linewise
        = write_registers linux s' g env content (some r) is_yank linewise) ∧
    (∀ r : Char,
      (write_registers linux s g env content (some r) is_yank linewise).1.last_yank
        = g.last_yank) ∧
    (write_registers linux s g env content (some '+') is_yank linewise).2.clipboard
      = some content.toClipboardItem ∧
    system_clipboard_is_newer
      (write_registers linux s g env content (some '+') is_yank linewise).1
      (write_registers linux s g env content (some '+') is_yank linewise).2 = true ∧
    read_register linux UseSystemClipboard.OnYank
      (write_registers linux s g env content (some '+') is_yank linewise).1
      (write_registers linux s g env content (some '+') is_yank linewise).2 none fp
      = some content := by
  have key : write_registers linux s g env content (some '+') is_yank linewise
      = ({ g with registers := updReg g.registers '"' content },
         { env with clipboard := some content.toClipboardItem }) := rfl
  have hnew : system_clipboard_is_newer
      (write_registers linux s g env content (some '+') is_yank linewise).1
      (write_registers linux s g env content (some '+') is_yank linewise).2 = true := by
    rw [key]
    cases hy : g.last_yank with
    | none => simp [system_clipboard_is_newer, Register.toClipboardItem, hy]
    | some l =>
      have hne : l ≠ content.text := by
        intro e
        exact hfresh (by rw [hy, e])
      simp [system_clipboard_is_newer, Register.toClipboardItem, hy, bne_iff_ne, hne]
  refine ⟨fun r => rfl, ?_, ?_, hnew, ?_⟩
  · intro r
    simp only [write_registers]
    split_ifs <;> rfl
  · rw [key]
  · simp only [read_register, Option.filter, hnew, if_true]
    rw [key]
    simp [Register.ofClipboardItem, Register.toClipboardItem]

/-- Claim C9 (witness): with no recorded yank, an explicit '+' write of "x"
followed by an unnamed read under `OnYank` yields the clipboard content "x". -/
theorem explicit_write_ignores_policy_witness :
    read_register false UseSystemClipboard.OnYank
      (write_registers false UseSystemClipboard.Never emptyGlobals emptyEnv
          { text := "x", clipboard_selections := none } (some '+') false false).1
      (write_registers false UseSystemClipboard.Never emptyGlobals emptyEnv
          { text := "x", clipboard_selections := none } (some '+') false false).2 none none
      = some { text := "x", clipboard_selections := none } :=
  (explicit_write_ignores_policy false UseSystemClipboard.Never UseSystemClipboard.Always
      emptyGlobals emptyEnv { text := "x", clipboard_selections := none } false false none
      (by decide)).2.2.2.2

/-- Claim C10: when no last-yank text has ever been recorded (`last_yank` is
none), `system_clipboard_is_newer` returns true exactly when the system
clipboard is non-empty, so under the `OnYank` policy a read of the unnamed
register before any yank returns the system clipboard contents rather than the
stored unnamed register — whatever the stored unnamed register holds (for
instance content just written by a delete). -/
theorem fresh_check_before_any_yank (linux : Bool) (g : VimGlobals) (env : SysEnv)
    (fp : Option String) (h : g.last_yank = none) :
    system_clipboard_is_newer g env = env.clipboard.isSome ∧
    (∀ item, env.clipboard = some item →
      read_register linux UseSystemClipboard.OnYank g env none fp
        = some (Register.ofClipboardItem item)) := by
  constructor
  · cases hc : env.clipboard <;> simp [system_clipboard_is_newer, hc, h]
  · intro item hc
    simp [read_register, Option.filter, system_clipboard_is_newer, hc, h]

/-- Claim C10 (witness): with no recorded yank and clipboard text "b", the
unnamed read under `OnYank` returns "b" even though the store is empty. -/
theorem fresh_check_before_any_yank_witness :
    read_register false UseSystemClipboard.OnYank emptyGlobals
      { clipboard := some { text := "b", metadata := none }, primary := none } none none
      = some (Register.ofClipboardItem { text := "b", metadata := none }) :=
  (fresh_check_before_any_yank false emptyGlobals
      { clipboard := some { text := "b", metadata := none }, primary := none } none
      rfl).2 { text := "b", metadata := none } rfl

end Vim
